import Mathlib

/-!
Verification of the DAD decompiler orchestrator
(androguard/decompiler/dad/decompile.py).

This file gives a shallow embedding of the orchestration code of the
decompiler: the per-method pipeline driver `DvMethod.process`, the
per-class driver `DvClass.process`, the field AST / source rendering of
field initialisers, the parameter register layout of `DvMethod.__init__`,
the annotation length-mismatch heuristic, the class AST builder
`DvClass.get_ast`, and the CLI class lookup `DvMachine.get_class`.

The external collaborators of the orchestrator (graph construction, the
dataflow passes, the structurer, the Writer and the JSON AST writer,
which live in modules outside the source under verification) are kept
abstract: they appear as parameters of the embedding (a `Collab`
record), so every theorem about the orchestrator holds for every
implementation of the collaborators.  The few places where a claim needs
a fact about a collaborator are modelled from the specification and
marked as such in their doc comments.
-/

set_option maxHeartbeats 1000000

namespace Dad

/-- Model of the Python values that can appear as a field initialiser
value (`field.init_value.value`): a string, an integer, a boolean or
`None`.  Python equality between values of different kinds is `False`. -/
inductive PyVal where
  | pstr (s : String)
  | pint (n : Int)
  | pbool (b : Bool)
  | pnone
deriving DecidableEq

/-- Python `val == "some string"`: only a string compares equal to a
string; an int, a bool or `None` compared to a string is `False`. -/
def pyEqStr (v : PyVal) (s : String) : Bool :=
  match v with
  | PyVal.pstr t => t == s
  | _ => false

/-- Python truthiness (`if value:`): `None`, the empty string, `0` and
`False` are falsy, everything else is truthy. -/
def pyTruthy : PyVal → Bool
  | PyVal.pnone => false
  | PyVal.pstr s => !s.isEmpty
  | PyVal.pint n => n != 0
  | PyVal.pbool b => b

/-- Python `str(value)`. -/
def pyToStr : PyVal → String
  | PyVal.pstr s => s
  | PyVal.pint n => toString n
  | PyVal.pbool b => if b then "True" else "False"
  | PyVal.pnone => "None"

/-- The integer payload of a value, as consumed by
`struct.pack("B", val)` (which requires an int in 0..255). -/
def pyToNat : PyVal → Nat
  | PyVal.pint n => n.toNat
  | _ => 0

/-- Shallow embedding of
`struct.unpack("b", struct.pack("B", val))[0]`: reinterpret a stored
unsigned byte as a signed (two's-complement) byte. -/
def decodeSignedByte (b : Nat) : Int :=
  if b < 128 then (b : Int) else (b : Int) - 256

/-- Python `hex(n)` for an int: lowercase hex digits, `-0x...` for
negative values. -/
def pyHex (n : Int) : String :=
  if n < 0 then "-0x" ++ String.mk (Nat.toDigits 16 (-n).toNat)
  else "0x" ++ String.mk (Nat.toDigits 16 n.toNat)

/-- Boolean prefix test on character lists. -/
def isPrefixOfL : List Char → List Char → Bool
  | [], _ => true
  | _ :: _, [] => false
  | a :: as, b :: bs => a == b && isPrefixOfL as bs

/-- Boolean contiguous-substring test on character lists; models the
Python `in` operator on strings. -/
def isInfixOfL (p : List Char) : List Char → Bool
  | [] => isPrefixOfL p []
  | c :: t => isPrefixOfL p (c :: t) || isInfixOfL p t

/-- Python `q in s` for strings (contiguous substring test). -/
def substrB (q s : String) : Bool :=
  isInfixOfL q.toList s.toList

/-- The AST literal expressions produced by `get_field_ast` (the
`literal_string`, `literal_bool`, ... constructors of the `dast`
collaborator, kept symbolic). -/
inductive FieldExpr where
  | litString (v : PyVal)
  | litBool (b : Bool)
  | litInt (v : PyVal)
  | litHexInt (n : Int)
  | litLong (v : PyVal)
  | litFloat (v : PyVal)
  | litDouble (v : PyVal)
  | litClass (v : PyVal)
  | dummy (s : String)
deriving DecidableEq

/-- Embedding of the initialiser-expression selection of
`get_field_ast` (decompile.py lines 62-86): the outer `Option` is the
truthiness test `if field.init_value:`, the `pnone` test is
`if val is not None:`, then the descriptor dispatch chain in source
order.  Note that `descriptor in "ISC"`, `descriptor in "J"`, ... are
Python substring tests, and that the byte case tests `field.proto`
rather than the descriptor. -/
def fieldInitExpr (descriptor proto : String) (initValue : Option PyVal) : Option FieldExpr :=
  match initValue with
  | none => none
  | some val =>
    if val = PyVal.pnone then none
    else if descriptor = "Ljava/lang/String;" then some (FieldExpr.litString val)
    else if descriptor = "Z" then some (FieldExpr.litBool (pyEqStr val "True"))
    else if isInfixOfL descriptor.toList "ISC".toList then some (FieldExpr.litInt val)
    else if proto = "B" then some (FieldExpr.litHexInt (decodeSignedByte (pyToNat val)))
    else if isInfixOfL descriptor.toList "J".toList then some (FieldExpr.litLong val)
    else if isInfixOfL descriptor.toList "F".toList then some (FieldExpr.litFloat val)
    else if isInfixOfL descriptor.toList "D".toList then some (FieldExpr.litDouble val)
    else if descriptor = "Ljava/lang/Class;" then some (FieldExpr.litClass val)
    else some (FieldExpr.dummy (pyToStr val))

/-- The data of one field as seen by `get_field_ast` and the source
renderers: class name, field name, descriptor, the `proto` attribute,
the (optional) initial value, and the access flag strings (the result
of `util.get_access_field`, which is an external helper). -/
structure FieldIn where
  className : String
  fname : String
  descriptor : String
  proto : String
  initValue : Option PyVal
  accessFlags : List String
deriving DecidableEq

/-- Python `s[1:-1]`. -/
def pyStrip1 (s : String) : String :=
  String.mk ((s.toList.drop 1).dropLast)

/-- The dictionary returned by `get_field_ast` (decompile.py lines
88-94). -/
structure FieldAST where
  triple : String × String × String
  ftype : String
  flags : List String
  annotations : List String
  expr : Option FieldExpr
deriving DecidableEq

/-- Embedding of `get_field_ast(field, annotations)` (decompile.py
lines 59-94); `parseDesc` stands for the external
`dast.parse_descriptor`. -/
def get_field_ast (parseDesc : String → String) (f : FieldIn) (annos : List String) : FieldAST :=
  { triple := (pyStrip1 f.className, f.fname, f.descriptor)
    ftype := parseDesc f.descriptor
    flags := f.accessFlags
    annotations := annos
    expr := fieldInitExpr f.descriptor f.proto f.initValue }

/-- Embedding of the field initialiser value rendering of
`DvClass.get_source` (decompile.py lines 509-523): the string branch
quotes and escapes a truthy value and renders a falsy one as an empty
string literal; the byte branch reinterprets the stored unsigned byte
as signed and renders it in hex; every other value is rendered with
`str`.  `esc` stands for the Python `unicode-escape` codec. -/
def fieldValueStr (esc : String → String) (fType proto : String) (value : PyVal) : String :=
  if fType = "String" then
    if pyTruthy value then "\"" ++ esc (pyToStr value) ++ "\"" else "\"\""
  else if proto = "B" then pyHex (decodeSignedByte (pyToNat value))
  else pyToStr value

/-- Embedding of the field initialiser rendering of
`DvClass.get_source_ext` (decompile.py lines 571-586); same cases as
`fieldValueStr`, each prefixed with an equals sign. -/
def fieldValueStrExt (esc : String → String) (fType proto : String) (value : PyVal) : String :=
  if fType = "String" then
    if pyTruthy value then " = \"" ++ esc (pyToStr value) ++ "\"" else " = \"\""
  else if proto = "B" then " = " ++ pyHex (decodeSignedByte (pyToNat value))
  else " = " ++ pyToStr value

/-- Keys of the `var_to_name` dictionary of a `DvMethod`: either a raw
register number or a generated (string) variable name. -/
inductive VKey where
  | reg (n : Nat)
  | name (s : String)
deriving DecidableEq

/-- Values of the `var_to_name` dictionary: the `ThisParam` binding of
the receiver, a `Param` binding of an explicit parameter, or the
uppercased name of a generated temporary variable. -/
inductive VarBind where
  | thisP (reg : Nat) (cls : String)
  | par (reg : Nat) (ptype : String)
  | tmp (nm : String)
deriving DecidableEq

/-- The `var_to_name` dictionary, as an association list. -/
def VMap : Type := List (VKey × VarBind)

/-- Python dict assignment `m[k] = b`: replace the binding of `k` if
present, otherwise append it. -/
def vmapInsert : List (VKey × VarBind) → VKey → VarBind → List (VKey × VarBind)
  | [], k, b => [(k, b)]
  | (k0, b0) :: rest, k, b =>
    if k0 = k then (k, b) :: rest else (k0, b0) :: vmapInsert rest k b

/-- Embedding of the parameter loop of `DvMethod.__init__`
(decompile.py lines 245-250): for each parameter type, bind the
register `start + num_param` and then advance `num_param` by the size
of that type.  Returns the list of (register, type) pairs in loop
order. -/
def paramLoop (sz : String → Nat) (start : Nat) : Nat → List String → List (Nat × String)
  | _, [] => []
  | num, p :: rest => (start + num, p) :: paramLoop sz start (num + sz p) rest

/-- Embedding of the register/parameter setup of `DvMethod.__init__`
(decompile.py lines 240-250): parameter numbering starts at
`registers_size - ins_size`; a non-static method first binds that
register to a `ThisParam` for the receiver and shifts the explicit
parameters up by one; every bound register is appended to `lparams`
and recorded in `var_to_name`.  `sz` stands for the external
`util.get_type_size`. -/
def dvInitParams (isStatic : Bool) (clsName : String) (registersSize insSize : Nat)
    (paramsType : List String) (sz : String → Nat) :
    List Nat × List (VKey × VarBind) :=
  let start := registersSize - insSize
  if isStatic then
    let ps := paramLoop sz start 0 paramsType
    (ps.map Prod.fst, ps.map (fun q => (VKey.reg q.1, VarBind.par q.1 q.2)))
  else
    let ps := paramLoop sz (start + 1) 0 paramsType
    (start :: ps.map Prod.fst,
     (VKey.reg start, VarBind.thisP start clsName) ::
       ps.map (fun q => (VKey.reg q.1, VarBind.par q.1 q.2)))

/-- Declarative description of the explicit parameter registers, taken
from the specification: the first explicit parameter sits at `start`,
and each subsequent parameter register advances by the size of the
preceding parameter type. -/
def specParamRegs (sz : String → Nat) (start : Nat) : List String → List Nat
  | [] => []
  | p :: rest => start :: specParamRegs sz (start + sz p) rest

/-- A sample type-size function for concrete evaluations: wide types
(long, double) take two registers, everything else one. -/
def szSample : String → Nat :=
  fun t => if t = "J" || t = "D" then 2 else 1

/-- Embedding of the parameter-annotation length-mismatch handling of
`DvMethod.__init__` (decompile.py lines 260-265): when the extracted
per-parameter annotation list disagrees in length with the parameter
type list, an empty list is inserted at position 0 when it is shorter
by exactly one, and otherwise the extraction is discarded in favour of
one empty list per parameter.  The length difference is computed over
the integers, as in Python. -/
def fixParamAnnotations {A T : Type} (extracted : List (List A)) (ptypes : List T) :
    List (List A) :=
  if extracted.length = ptypes.length then extracted
  else if (ptypes.length : Int) - (extracted.length : Int) = 1 then [] :: extracted
  else List.replicate ptypes.length []

/-- An entry of the `DvMachine.classes` map: either a raw
`ClassDefItem` (type `R`) or an already-converted `DvClass` (type
`D`). -/
inductive ClsEntry (R D : Type) where
  | raw (c : R)
  | dv (d : D)
deriving DecidableEq

/-- The `DvClass` view of a map entry, converting a raw class with
`toDv` (which stands for the `DvClass` constructor) if necessary. -/
def entryDv {R D : Type} (toDv : R → D) : ClsEntry R D → D
  | ClsEntry.raw c => toDv c
  | ClsEntry.dv d => d

/-- Embedding of `DvMachine.get_class` (decompile.py lines 656-673):
walk the class map in order; the first entry whose full name contains
the query as a substring is returned, converted to a `DvClass` (and
the map updated) if it still is a raw class.  Returns the result and
the updated map; a query matching no entry returns `none` (Python
returns `None`). -/
def getClass {R D : Type} (toDv : R → D) (q : String) :
    List (String × ClsEntry R D) → Option D × List (String × ClsEntry R D)
  | [] => (none, [])
  | (nm, k) :: rest =>
    if substrB q nm then
      match k with
      | ClsEntry.dv d => (some d, (nm, ClsEntry.dv d) :: rest)
      | ClsEntry.raw c => (some (toDv c), (nm, ClsEntry.dv (toDv c)) :: rest)
    else
      let r := getClass toDv q rest
      (r.1, (nm, k) :: r.2)

/-- The per-method AST dictionary, with the keys the specification
gives for a method (`triple`, `flags`, `ret`, `params`, `comments`,
`body`); the body is a list of statements of an abstract statement
type `Stmt`. -/
structure MethodAST (Stmt : Type) where
  triple : String × String × String
  flags : List String
  ret : String
  params : List Nat
  comments : List String
  body : List Stmt
deriving DecidableEq

/-- An entry of `DvClass.methods`: either a still-unprocessed
`EncodedMethod` (identified abstractly by an index) or a `DvMethod`
carrying its optional AST.  The truthiness test `m.ast` of the source
coincides with `Option.isSome` here because a produced method AST is a
dictionary with six fixed keys and hence never falsy. -/
inductive ClsMethodE (Stmt : Type) where
  | encoded (idx : Nat)
  | dvm (ast : Option (MethodAST Stmt))
deriving DecidableEq

/-- The values of the per-class AST dictionary of `DvClass.get_ast`. -/
inductive AVal (Stmt : Type) where
  | s (v : String)
  | b (v : Bool)
  | ls (v : List String)
  | fs (v : List FieldAST)
  | ms (v : List (MethodAST Stmt))
deriving DecidableEq

/-- The fields of a `DvClass` that `DvClass.get_ast` reads.  Fields are
stored together with their annotation lists (the source pairs them via
`self.field_annotations.get(idx, [])`). -/
structure DvClassS (Stmt : Type) where
  thisclass : String
  superclass : String
  access : List String
  interfaces : List String
  classAnnotations : List String
  fields : List (FieldIn × List String)
  methods : List (ClsMethodE Stmt)

/-- Embedding of the method-collection loop of `DvClass.get_ast`
(decompile.py lines 469-472): keep exactly the entries that are
`DvMethod` instances with a truthy (present) AST, in order. -/
def classGetAstMethods {Stmt : Type} : List (ClsMethodE Stmt) → List (MethodAST Stmt)
  | [] => []
  | ClsMethodE.dvm (some a) :: rest => a :: classGetAstMethods rest
  | ClsMethodE.dvm none :: rest => classGetAstMethods rest
  | ClsMethodE.encoded _ :: rest => classGetAstMethods rest

/-- Embedding of the dictionary literal returned by `DvClass.get_ast`
(decompile.py lines 467-484), as an association list in source key
order.  `parseDesc` stands for the external `dast.parse_descriptor`;
`isInterface` is the Python list-membership test
`"interface" in self.access`. -/
def classGetAst {Stmt : Type} (parseDesc : String → String) (c : DvClassS Stmt) :
    List (String × AVal Stmt) :=
  [("rawname", AVal.s (pyStrip1 c.thisclass)),
   ("name", AVal.s (parseDesc c.thisclass)),
   ("super", AVal.s (parseDesc c.superclass)),
   ("flags", AVal.ls c.access),
   ("isInterface", AVal.b (c.access.contains "interface")),
   ("interfaces", AVal.ls (c.interfaces.map parseDesc)),
   ("annotations", AVal.ls c.classAnnotations),
   ("fields", AVal.fs (c.fields.map (fun fa => get_field_ast parseDesc fa.1 fa.2))),
   ("methods", AVal.ms (classGetAstMethods c.methods))]

/-- Events observable from the per-class processing loop: either
method `i` was decompiled normally, or its failure was caught and a
warning was logged. -/
inductive CEvent where
  | methodOk (i : Nat)
  | warnedFailure (i : Nat)
deriving DecidableEq

/-- Model of one `DvClass.process_method(i)` call: it either completes
and installs a writer whose rendered text is `render i`, or raises.
The abstract flag `raises` records whether any of the decompilation
steps for this method raises an exception. -/
def processMethodModel (render : Nat → String) (raises : Bool) (i : Nat) :
    Except String String :=
  if raises then Except.error "decompilation failed" else Except.ok (render i)

/-- Embedding of the loop of `DvClass.process` (decompile.py lines
459-465): every method index is visited in order; a raising
`process_method` call is caught at the per-method boundary, a warning
event is recorded, and the loop continues; a failed method keeps no
writer (`none`), a successful one keeps its rendered text. -/
def classProcessAux (render : Nat → String) : Nat → List Bool → List CEvent × List (Option String)
  | _, [] => ([], [])
  | i, r :: rest =>
    match processMethodModel render r i with
    | Except.error _ =>
      let res := classProcessAux render (i + 1) rest
      (CEvent.warnedFailure i :: res.1, none :: res.2)
    | Except.ok t =>
      let res := classProcessAux render (i + 1) rest
      (CEvent.methodOk i :: res.1, some t :: res.2)

/-- `DvClass.process` over the whole method list, starting at index 0. -/
def classProcess (render : Nat → String) (ms : List Bool) :
    List CEvent × List (Option String) :=
  classProcessAux render 0 ms

/-- `DvMethod.get_source` (decompile.py lines 375-378): a method whose
writer was never installed renders as the empty string. -/
def methodSource : Option String → String
  | none => ""
  | some t => t

/-- The observable events of `DvMethod.process`: one event per
collaborator pass invoked by the orchestrator (in the order the source
calls them), the registration loop for generated temporary variables,
and the final emission (text writer or AST writer). -/
inductive Pass where
  | construct
  | buildDefUse
  | splitVariables
  | deadCodeElimination
  | registerPropagation
  | resolveVariablesType
  | newInstancePropagation
  | registerTmpVars
  | placeDeclarations
  | splitIfNodes
  | simplifyG
  | computeRpo
  | identifyStructures
  | emitText
  | emitAST
deriving DecidableEq, BEq

/-- The `def_uses` map: its keys are `(variable, instruction index)`
pairs, its values are of an abstract type `DU`. -/
def DuM (DU : Type) : Type := List ((VKey × Nat) × DU)

/-- Embedding of the temporary-variable registration loop of
`DvMethod.process` (decompile.py lines 320-322): for every key of
`def_uses` whose variable is not an int (that is, a generated name),
bind it in `var_to_name` to its uppercased name. -/
def registerTmps {DU : Type} (du : DuM DU) (v : List (VKey × VarBind)) :
    List (VKey × VarBind) :=
  du.foldl
    (fun acc kv =>
      match kv.1.1 with
      | VKey.reg _ => acc
      | VKey.name s => vmapInsert acc (VKey.name s) (VarBind.tmp s.toUpper))
    v

/-- The external collaborator functions that `DvMethod.process` drives,
with the argument lists of the source; in-place mutation of the graph,
of `var_to_name` and of the def/use maps is modelled by returning the
updated values.  `renderBody` and `renderText` stand for the body
rendering of the JSON writer and of the text writer on a structured
graph. -/
structure Collab (G DU UD Exc IDom Stmt : Type) where
  construct : Nat → List (VKey × VarBind) → Exc → G
  build_def_use : G → List Nat → UD × DuM DU
  split_variables : G → List (VKey × VarBind) → DuM DU → UD →
    G × List (VKey × VarBind) × DuM DU × UD
  dead_code_elimination : G → DuM DU → UD → G × DuM DU × UD
  register_propagation : G → DuM DU → UD → G × DuM DU × UD
  resolve_variables_type : G → List (VKey × VarBind) → DuM DU → UD →
    G × List (VKey × VarBind) × DuM DU × UD
  new_instance_propgation : G → DuM DU → UD → G × DuM DU × UD
  place_declarations : G → List (VKey × VarBind) → DuM DU → UD →
    G × List (VKey × VarBind)
  split_if_nodes : G → G
  simplify : G → G
  compute_rpo : G → G
  immediate_dominators : G → IDom
  identify_structures : G → IDom → G
  renderBody : G → List Stmt
  renderText : G → String

/-- The state of a `DvMethod` as set up by `DvMethod.__init__` and
mutated by `process`: the optional start block (absent for
native/abstract methods), the parameter registers, the naming
environment, the exception metadata, and the outputs (`graph`,
`writer`, `ast`), plus the method data used for prototype emission. -/
structure DvMethodS (G Exc Stmt : Type) where
  startBlock : Option Nat
  lparams : List Nat
  varToName : List (VKey × VarBind)
  exceptions : Exc
  graph : Option G
  writer : Option (Option G × String)
  ast : Option (MethodAST Stmt)
  clsName : String
  mname : String
  retType : String
  access : List String
  triple : String × String × String

/-- The rendered method prototype, assembled from the access flags, the
return type and the method name. -/
def protoOf {G Exc Stmt : Type} (m : DvMethodS G Exc Stmt) : String :=
  String.intercalate " " m.access ++ " " ++ m.retType ++ " " ++ m.mname

/-- Modelled from the spec: the text `Writer` collaborator
(androguard/decompiler/dad/writer.py, which is not part of the source
under verification).  `Writer(graph, self)` followed by
`write_method()` renders the method prototype and, for a method
without code (`graph` is `None`), an empty body; for a method with
code the body rendering is the abstract `renderText`.  The writer is
modelled as the pair of its graph and its rendered text. -/
def mkWriterM {G Exc Stmt : Type} (g : Option G) (renderText : G → String)
    (m : DvMethodS G Exc Stmt) : Option G × String :=
  (g, protoOf m ++
    (match g with
     | none => " \x7b\x7d\n"
     | some gg => renderText gg))

/-- Modelled from the spec: `JSONWriter.get_ast`
(androguard/decompiler/dad/dast.py, which is not part of the source
under verification).  Per method it returns a dictionary with the keys
`triple`, `flags`, `ret`, `params`, `comments` and `body`; for a
method without code (`graph` is `None`) the body is the empty list,
otherwise it is the abstract rendering of the structured graph. -/
def jsonGetAst {G Exc Stmt : Type} (g : Option G) (renderBody : G → List Stmt)
    (m : DvMethodS G Exc Stmt) : MethodAST Stmt :=
  { triple := m.triple
    flags := m.access
    ret := m.retType
    params := m.lparams
    comments := []
    body :=
      match g with
      | none => []
      | some gg => renderBody gg }

/-- Embedding of `DvMethod.process` (decompile.py lines 277-351).  A
method without a start block (native/abstract) only creates a writer
(or a JSON AST) over a `None` graph and returns.  Otherwise the
pipeline runs in source order: CFG construction, `build_def_use`,
`split_variables`, `dead_code_elimination`, `register_propagation`,
`resolve_variables_type`, `new_instance_propgation`, the registration
of generated temporary variables, `place_declarations`,
`split_if_nodes`, `simplify`, `compute_rpo`, `identify_structures`
(over the immediate dominators), and finally the emission.  The second
component records one event per step, in execution order. -/
def process {G DU UD Exc IDom Stmt : Type} (c : Collab G DU UD Exc IDom Stmt)
    (m : DvMethodS G Exc Stmt) (doAST : Bool) :
    DvMethodS G Exc Stmt × List Pass :=
  match m.startBlock with
  | none =>
    if doAST then
      ({ m with ast := some (jsonGetAst none c.renderBody m) }, [Pass.emitAST])
    else
      ({ m with writer := some (mkWriterM none c.renderText m) }, [Pass.emitText])
  | some sb =>
    let g0 := c.construct sb m.varToName m.exceptions
    let bd := c.build_def_use g0 m.lparams
    let sv := c.split_variables g0 m.varToName bd.2 bd.1
    let dce := c.dead_code_elimination sv.1 sv.2.2.1 sv.2.2.2
    let rp := c.register_propagation dce.1 dce.2.1 dce.2.2
    let rvt := c.resolve_variables_type rp.1 sv.2.1 rp.2.1 rp.2.2
    let nip := c.new_instance_propgation rvt.1 rvt.2.2.1 rvt.2.2.2
    let v2 := registerTmps nip.2.1 rvt.2.1
    let pd := c.place_declarations nip.1 v2 nip.2.1 nip.2.2
    let g1 := c.split_if_nodes pd.1
    let g2 := c.simplify g1
    let g3 := c.compute_rpo g2
    let g4 := c.identify_structures g3 (c.immediate_dominators g3)
    let m2 := { m with graph := some g4, varToName := pd.2 }
    if doAST then
      ({ m2 with ast := some (jsonGetAst (some g4) c.renderBody m2) },
       [Pass.construct, Pass.buildDefUse, Pass.splitVariables,
        Pass.deadCodeElimination, Pass.registerPropagation,
        Pass.resolveVariablesType, Pass.newInstancePropagation,
        Pass.registerTmpVars, Pass.placeDeclarations, Pass.splitIfNodes,
        Pass.simplifyG, Pass.computeRpo, Pass.identifyStructures,
        Pass.emitAST])
    else
      ({ m2 with writer := some (mkWriterM (some g4) c.renderText m2) },
       [Pass.construct, Pass.buildDefUse, Pass.splitVariables,
        Pass.deadCodeElimination, Pass.registerPropagation,
        Pass.resolveVariablesType, Pass.newInstancePropagation,
        Pass.registerTmpVars, Pass.placeDeclarations, Pass.splitIfNodes,
        Pass.simplifyG, Pass.computeRpo, Pass.identifyStructures,
        Pass.emitText])

/-- A trivial collaborator instance over unit types, used to evaluate
the orchestrator theorems on concrete inputs. -/
def trivCollab : Collab Unit Unit Unit Unit Unit Unit :=
  { construct := fun _ _ _ => ()
    build_def_use := fun _ _ => ((), [])
    split_variables := fun g v d u => (g, v, d, u)
    dead_code_elimination := fun g d u => (g, d, u)
    register_propagation := fun g d u => (g, d, u)
    resolve_variables_type := fun g v d u => (g, v, d, u)
    new_instance_propgation := fun g d u => (g, d, u)
    place_declarations := fun g v _ _ => (g, v)
    split_if_nodes := fun g => g
    simplify := fun g => g
    compute_rpo := fun g => g
    immediate_dominators := fun _ => ()
    identify_structures := fun g _ => g
    renderBody := fun _ => []
    renderText := fun _ => "" }

/-- A concrete method state that has code (a start block). -/
def mWithCode : DvMethodS Unit Unit Unit :=
  { startBlock := some 0
    lparams := [0]
    varToName := []
    exceptions := ()
    graph := none
    writer := none
    ast := none
    clsName := "LC;"
    mname := "m"
    retType := "void"
    access := ["public"]
    triple := ("LC;", "m", "()V") }

/-- A concrete method state without code (native/abstract). -/
def mNoCode : DvMethodS Unit Unit Unit :=
  { startBlock := none
    lparams := []
    varToName := []
    exceptions := ()
    graph := none
    writer := none
    ast := none
    clsName := "LC;"
    mname := "n"
    retType := "void"
    access := ["public", "native"]
    triple := ("LC;", "n", "()V") }

/-- A concrete boolean field whose stored initial value is the integer
one. -/
def fieldZ1 : FieldIn :=
  { className := "LA;"
    fname := "flag"
    descriptor := "Z"
    proto := "Z"
    initValue := some (PyVal.pint 1)
    accessFlags := [] }

/-- A concrete boolean field whose stored initial value is the string
True. -/
def fieldZTrue : FieldIn :=
  { className := "LA;"
    fname := "flag"
    descriptor := "Z"
    proto := "Z"
    initValue := some (PyVal.pstr "True")
    accessFlags := [] }

/-- A concrete byte field whose stored (unsigned) initial value is
254. -/
def fieldB254 : FieldIn :=
  { className := "LA;"
    fname := "b"
    descriptor := "B"
    proto := "B"
    initValue := some (PyVal.pint 254)
    accessFlags := [] }

theorem quoted_ne_null (s : String) : ("\"" ++ s ++ "\"") ≠ "null" := by
  intro h
  have hd : ("\"" ++ s ++ "\"").data = ("null").data := by rw [h]
  rw [String.data_append, String.data_append] at hd
  have e1 : ("\"").data = ['\"'] := rfl
  have e2 : ("null").data = ['n', 'u', 'l', 'l'] := rfl
  rw [e1, e2] at hd
  simp only [List.cons_append, List.nil_append, List.cons.injEq] at hd
  exact absurd hd.1 (by decide)

/-- C4: a stored unsigned byte value b in 0..255 of a field of Dalvik
proto B is decoded by two's-complement reinterpretation into a signed
byte in -128..127 (255 decodes to -1, 128 to -128, 127 to 127, 254 to
-2); the decoded signed value is what appears in the AST literal and,
rendered as hex, in the source output of both renderers, and for
values at or above 128 it differs from the raw unsigned value. -/
theorem byte_field_twos_complement (b : Nat) (hb : b < 256)
    (parseDesc esc : String → String) (annos : List String) (f : FieldIn)
    (hd : f.descriptor = "B") (hp : f.proto = "B")
    (hv : f.initValue = some (PyVal.pint b))
    (fType : String) (hft : fType ≠ "String") :
    (get_field_ast parseDesc f annos).expr =
      some (FieldExpr.litHexInt (decodeSignedByte b)) ∧
    decodeSignedByte b = (if b < 128 then (b : Int) else (b : Int) - 256) ∧
    (-128 ≤ decodeSignedByte b ∧ decodeSignedByte b ≤ 127) ∧
    (decodeSignedByte 255 = -1 ∧ decodeSignedByte 128 = -128 ∧
     decodeSignedByte 127 = 127 ∧ decodeSignedByte 254 = -2) ∧
    fieldValueStr esc fType "B" (PyVal.pint b) = pyHex (decodeSignedByte b) ∧
    fieldValueStrExt esc fType "B" (PyVal.pint b) =
      " = " ++ pyHex (decodeSignedByte b) ∧
    (128 ≤ b → decodeSignedByte b ≠ (b : Int)) := by
  refine ⟨?_, rfl, ?_, by decide, ?_, ?_, ?_⟩
  · have h1 : (get_field_ast parseDesc f annos).expr =
        fieldInitExpr "B" "B" (some (PyVal.pint b)) := by
      simp [get_field_ast, hd, hp, hv]
    rw [h1]
    rfl
  · unfold decodeSignedByte
    split <;> omega
  · simp [fieldValueStr, hft, pyToNat]
  · simp [fieldValueStrExt, hft, pyToNat]
  · intro h128
    unfold decodeSignedByte
    rw [if_neg (by omega)]
    omega

/-- C4 witness: the byte field with stored value 254 decodes to -2 in
the AST literal and renders as hex -0x2 in the source. -/
theorem byte_field_twos_complement_witness :
    (get_field_ast (fun s => s) fieldB254 []).expr =
      some (FieldExpr.litHexInt (decodeSignedByte 254)) ∧
    decodeSignedByte 254 = -2 ∧
    fieldValueStr (fun s => s) "byte" "B" (PyVal.pint (254 : Nat)) = "-0x2" := by
  have h := byte_field_twos_complement 254 (by decide) (fun s => s) (fun s => s)
    [] fieldB254 rfl rfl rfl "byte" (by decide)
  refine ⟨h.1, h.2.2.2.1.2.2.2, ?_⟩
  rw [h.2.2.2.2.1]
  decide

/-- C6 counterexample: the claim says a Z field literal is decoded
from the underlying integer value (non-zero meaning true), but for the
stored integer 1 the code compares against the string True and yields
the boolean literal false. -/
theorem bool_field_int_counterexample :
    (get_field_ast (fun s => s) fieldZ1 []).expr =
      some (FieldExpr.litBool false) ∧
    pyTruthy (PyVal.pint 1) = true := by
  exact ⟨rfl, rfl⟩

/-- C6 amended: for every field with descriptor Z and a present,
non-None init value, the AST field literal is the boolean result of
the textual comparison of the stored value with the string True (so a
non-string value, whatever its integer value, decodes to false). -/
theorem bool_field_textual_decoding (parseDesc : String → String)
    (annos : List String) (f : FieldIn) (hd : f.descriptor = "Z") :
    (get_field_ast parseDesc f annos).expr =
      (match f.initValue with
       | none => none
       | some v =>
         if v = PyVal.pnone then none
         else some (FieldExpr.litBool (pyEqStr v "True"))) := by
  cases hv : f.initValue with
  | none => simp [get_field_ast, fieldInitExpr, hv]
  | some v =>
    by_cases hn : v = PyVal.pnone
    · simp [get_field_ast, fieldInitExpr, hv, hn]
    · simp [get_field_ast, fieldInitExpr, hv, hn, hd]

/-- C6 amended witness: the boolean field whose stored value is the
string True decodes to the boolean literal true. -/
theorem bool_field_textual_decoding_witness :
    (get_field_ast (fun s => s) fieldZTrue []).expr =
      some (FieldExpr.litBool true) := by
  have h := bool_field_textual_decoding (fun s => s) [] fieldZTrue rfl
  rw [h]
  rfl

/-- C9: a String-typed field with a present init value whose stored
value is empty or absent renders as the empty string literal in both
source renderers, and a String-typed initialiser is always a quoted
string literal, never the bare token null. -/
theorem string_field_empty_init (esc : String → String) (proto : String)
    (v : PyVal) (hv : v = PyVal.pnone ∨ v = PyVal.pstr "") :
    fieldValueStr esc "String" proto v = "\"\"" ∧
    fieldValueStrExt esc "String" proto v = " = \"\"" ∧
    (∀ w : PyVal, ∃ s : String,
      fieldValueStr esc "String" proto w = "\"" ++ s ++ "\"") ∧
    (∀ w : PyVal, fieldValueStr esc "String" proto w ≠ "null") := by
  have hfalsy : pyTruthy v = false := by
    rcases hv with h | h <;> subst h <;> rfl
  refine ⟨?_, ?_, ?_, ?_⟩
  · simp [fieldValueStr, hfalsy]
  · simp [fieldValueStrExt, hfalsy]
  · intro w
    by_cases hw : pyTruthy w
    · exact ⟨esc (pyToStr w), by simp [fieldValueStr, hw]⟩
    · exact ⟨"", by simp [fieldValueStr, hw]⟩
  · intro w
    by_cases hw : pyTruthy w
    · simpa [fieldValueStr, hw] using quoted_ne_null (esc (pyToStr w))
    · simp [fieldValueStr, hw]

theorem paramLoop_eq (sz : String → Nat) (ptypes : List String) :
    ∀ start num, paramLoop sz start num ptypes =
      (specParamRegs sz (start + num) ptypes).zip ptypes := by
  induction ptypes with
  | nil => intro start num; rfl
  | cons p rest ih =>
    intro start num
    rw [paramLoop, specParamRegs, List.zip_cons_cons, ih start (num + sz p),
        ← Nat.add_assoc]

theorem specParamRegs_length (sz : String → Nat) (ptypes : List String) :
    ∀ start, (specParamRegs sz start ptypes).length = ptypes.length := by
  induction ptypes with
  | nil => intro start; rfl
  | cons p rest ih =>
    intro start
    rw [specParamRegs, List.length_cons, List.length_cons, ih]

theorem zipmap_fst (sz : String → Nat) (ptypes : List String) (st : Nat) :
    (((specParamRegs sz st ptypes).zip ptypes).map
        (fun q => (VKey.reg q.1, VarBind.par q.1 q.2))).map Prod.fst =
      (specParamRegs sz st ptypes).map VKey.reg := by
  rw [List.map_map]
  conv_rhs =>
    rw [← List.map_fst_zip (specParamRegs sz st ptypes) ptypes
          (le_of_eq (specParamRegs_length sz ptypes st))]
  rw [List.map_map]
  rfl

/-- C5: for a method with code, parameter numbering starts at register
registers_size - ins_size; a non-static method binds that first slot
to a ThisParam for the receiver and the explicit parameters follow,
each subsequent register advancing by the size of the preceding
parameter type (this is what `specParamRegs` expresses); every such
register appears in `lparams` and, with its binding, in
`var_to_name`. -/
theorem dvInit_param_registers (isStatic : Bool) (cls : String) (rs ins : Nat)
    (ptypes : List String) (sz : String → Nat) (_h : ins ≤ rs) :
    ((dvInitParams isStatic cls rs ins ptypes sz).1 =
       (if isStatic then [] else [rs - ins]) ++
         specParamRegs sz (if isStatic then rs - ins else rs - ins + 1) ptypes) ∧
    ((dvInitParams isStatic cls rs ins ptypes sz).2 =
       (if isStatic then []
        else [(VKey.reg (rs - ins), VarBind.thisP (rs - ins) cls)]) ++
         ((specParamRegs sz (if isStatic then rs - ins else rs - ins + 1)
             ptypes).zip ptypes).map
           (fun q => (VKey.reg q.1, VarBind.par q.1 q.2))) ∧
    ((dvInitParams isStatic cls rs ins ptypes sz).2.map Prod.fst =
       (dvInitParams isStatic cls rs ins ptypes sz).1.map VKey.reg) := by
  have hlen : ∀ st, (specParamRegs sz st ptypes).length ≤ ptypes.length :=
    fun st => le_of_eq (specParamRegs_length sz ptypes st)
  cases isStatic with
  | false =>
    have h1 : (dvInitParams false cls rs ins ptypes sz).1 =
        (rs - ins) :: specParamRegs sz (rs - ins + 1) ptypes := by
      simp only [dvInitParams, Bool.false_eq_true, if_false, paramLoop_eq,
        Nat.add_zero]
      rw [List.map_fst_zip _ _ (hlen _)]
    have h2 : (dvInitParams false cls rs ins ptypes sz).2 =
        (VKey.reg (rs - ins), VarBind.thisP (rs - ins) cls) ::
          ((specParamRegs sz (rs - ins + 1) ptypes).zip ptypes).map
            (fun q => (VKey.reg q.1, VarBind.par q.1 q.2)) := by
      simp only [dvInitParams, Bool.false_eq_true, if_false, paramLoop_eq,
        Nat.add_zero]
    refine ⟨by simpa using h1, by simpa using h2, ?_⟩
    rw [h1, h2, List.map_cons, List.map_cons, zipmap_fst]
  | true =>
    have h1 : (dvInitParams true cls rs ins ptypes sz).1 =
        specParamRegs sz (rs - ins) ptypes := by
      simp only [dvInitParams, if_true, paramLoop_eq, Nat.add_zero]
      rw [List.map_fst_zip _ _ (hlen _)]
    have h2 : (dvInitParams true cls rs ins ptypes sz).2 =
        ((specParamRegs sz (rs - ins) ptypes).zip ptypes).map
          (fun q => (VKey.reg q.1, VarBind.par q.1 q.2)) := by
      simp only [dvInitParams, if_true, paramLoop_eq, Nat.add_zero]
    refine ⟨by simpa using h1, by simpa using h2, ?_⟩
    rw [h1, h2, zipmap_fst]

/-- C5 witness: a non-static method with 5 registers, 4 in-registers
and parameter types int, long, float binds `this` at register 1 and
the parameters at registers 2, 3 and 5 (the long occupies two
registers). -/
theorem dvInit_param_registers_witness :
    (dvInitParams false "LFoo;" 5 4 ["I", "J", "F"] szSample).1 = [1, 2, 3, 5] ∧
    (dvInitParams false "LFoo;" 5 4 ["I", "J", "F"] szSample).2 =
      [(VKey.reg 1, VarBind.thisP 1 "LFoo;"), (VKey.reg 2, VarBind.par 2 "I"),
       (VKey.reg 3, VarBind.par 3 "J"), (VKey.reg 5, VarBind.par 5 "F")] := by
  have h := dvInit_param_registers false "LFoo;" 5 4 ["I", "J", "F"] szSample
    (by decide)
  refine ⟨?_, ?_⟩
  · rw [h.1]; decide
  · rw [h.2.1]; decide

/-- C8: when the extracted per-parameter annotation list is shorter
than the parameter type list by exactly one, an empty annotation list
is inserted at position 0; for any other non-zero length mismatch the
extraction is discarded in favour of one empty list per parameter; an
extraction of matching length is kept unchanged. -/
theorem annotation_mismatch_fix {A T : Type} (extracted : List (List A))
    (ptypes : List T) :
    (extracted.length + 1 = ptypes.length →
       fixParamAnnotations extracted ptypes = [] :: extracted) ∧
    (extracted.length ≠ ptypes.length → extracted.length + 1 ≠ ptypes.length →
       fixParamAnnotations extracted ptypes = List.replicate ptypes.length []) ∧
    (extracted.length = ptypes.length →
       fixParamAnnotations extracted ptypes = extracted) := by
  unfold fixParamAnnotations
  refine ⟨?_, ?_, ?_⟩
  · intro h1
    rw [if_neg (by omega), if_pos (by omega)]
  · intro h1 h2
    rw [if_neg h1, if_neg (by omega)]
  · intro h1
    rw [if_pos h1]

/-- C8 witness: one extracted list against two parameter types gets an
empty list inserted in front; one extracted list against three
parameter types is discarded in favour of three empty lists. -/
theorem annotation_mismatch_fix_witness :
    fixParamAnnotations [[5]] ([0, 1] : List Nat) = [[], [5]] ∧
    fixParamAnnotations [[5]] ([0, 1, 2] : List Nat) = [[], [], []] := by
  exact ⟨(annotation_mismatch_fix [[5]] [0, 1]).1 (by decide),
         (annotation_mismatch_fix [[5]] [0, 1, 2]).2.1 (by decide) (by decide)⟩

/-- C9 witness: an empty stored string and an absent stored value both
render as an empty string literal. -/

theorem string_field_empty_init_witness :
    fieldValueStr (fun s => s) "String" "Ljava/lang/String;" (PyVal.pstr "") = "\"\"" ∧
    fieldValueStrExt (fun s => s) "String" "Ljava/lang/String;" PyVal.pnone = " = \"\"" := by
  exact ⟨(string_field_empty_init (fun s => s) "Ljava/lang/String;"
            (PyVal.pstr "") (Or.inr rfl)).1,
         (string_field_empty_init (fun s => s) "Ljava/lang/String;"
            PyVal.pnone (Or.inl rfl)).2.1⟩

theorem classProcessAux_eq (render : Nat → String) (ms : List Bool) :
    ∀ k, classProcessAux render k ms =
      ((ms.enumFrom k).map
         (fun p => if p.2 then CEvent.warnedFailure p.1 else CEvent.methodOk p.1),
       (ms.enumFrom k).map (fun p => if p.2 then none else some (render p.1))) := by
  induction ms with
  | nil => intro k; rfl
  | cons r rest ih =>
    intro k
    cases r with
    | false =>
      simp [classProcessAux, processMethodModel, List.enumFrom, ih (k + 1)]
    | true =>
      simp [classProcessAux, processMethodModel, List.enumFrom, ih (k + 1)]

/-- C3: the loop of `DvClass.process` visits every method index in
order and is never aborted: a method whose decompilation raises
produces a logged-warning event and an absent writer (so its rendered
source is the empty stub), and the remaining methods of the class are
still processed normally. -/
theorem class_process_isolates_failures (render : Nat → String) (ms : List Bool) :
    ((classProcess render ms).1 =
       ms.enum.map
         (fun p => if p.2 then CEvent.warnedFailure p.1 else CEvent.methodOk p.1)) ∧
    ((classProcess render ms).2.map methodSource =
       ms.enum.map (fun p => if p.2 then "" else render p.1)) ∧
    ((classProcess render ms).1.length = ms.length) := by
  have h := classProcessAux_eq render ms 0
  refine ⟨?_, ?_, ?_⟩
  · rw [classProcess, h]
    rfl
  · rw [classProcess, h]
    simp only [List.enum, List.map_map]
    refine List.map_congr_left ?_
    intro p _
    by_cases hp : p.2 <;> simp [methodSource, hp]
  · rw [classProcess, h]
    simp [List.enum, List.enumFrom_length]

theorem getClass_aux {R D : Type} (toDv : R → D) (q : String) :
    ∀ cls : List (String × ClsEntry R D),
      ((getClass toDv q cls).1 =
        (cls.find? (fun p => substrB q p.1)).map (fun p => entryDv toDv p.2)) ∧
      ((getClass toDv q cls).2.map Prod.fst = cls.map Prod.fst)
  | [] => ⟨rfl, rfl⟩
  | (nm, k) :: rest => by
    have ih := getClass_aux toDv q rest
    by_cases hs : substrB q nm
    · cases k with
      | dv d => simp [getClass, hs, entryDv]
      | raw c => simp [getClass, hs, entryDv]
    · simp [getClass, hs, ih.1, ih.2]

/-- C7: `DvMachine.get_class` returns the first class of the map whose
full name contains the query as a substring (converted via `toDv` if
it still is a raw entry, the map keeping its keys); it does not
require an exact name match even when an exact match exists later in
the map, as the concrete instance shows: the query Lfoo; returns the
earlier entry LaLfoo;bar; although the exact entry Lfoo; comes
later. -/
theorem machine_get_class_substring {R D : Type} (toDv : R → D) (q : String)
    (cls : List (String × ClsEntry R D)) :
    ((getClass toDv q cls).1 =
       (cls.find? (fun p => substrB q p.1)).map (fun p => entryDv toDv p.2)) ∧
    ((getClass toDv q cls).2.map Prod.fst = cls.map Prod.fst) ∧
    ((getClass (fun n : Nat => n) "Lfoo;"
        [("LaLfoo;bar;", ClsEntry.raw 1), ("Lfoo;", ClsEntry.raw 2)]).1 = some 1) ∧
    ((("LaLfoo;bar;" : String) == "Lfoo;") = false ∧
     substrB "Lfoo;" "Lfoo;" = true) :=
  ⟨(getClass_aux toDv q cls).1, (getClass_aux toDv q cls).2,
   by decide, by decide, by decide⟩

theorem classGetAstMethods_eq {Stmt : Type} :
    ∀ ms : List (ClsMethodE Stmt),
      classGetAstMethods ms = ms.filterMap
        (fun m => match m with
          | ClsMethodE.dvm a => a
          | ClsMethodE.encoded _ => none)
  | [] => rfl
  | ClsMethodE.encoded i :: rest => by
    simp [classGetAstMethods, List.filterMap_cons, classGetAstMethods_eq rest]
  | ClsMethodE.dvm none :: rest => by
    simp [classGetAstMethods, List.filterMap_cons, classGetAstMethods_eq rest]
  | ClsMethodE.dvm (some a) :: rest => by
    simp [classGetAstMethods, List.filterMap_cons, classGetAstMethods_eq rest]

/-- C10: the per-class dictionary of `DvClass.get_ast` has exactly the
keys rawname, name, super, flags, isInterface, interfaces,
annotations, fields and methods, in that order, and its methods entry
holds exactly the methods that are `DvMethod` instances with a present
AST; entries never processed (still encoded) or processed without an
AST are silently omitted. -/
theorem class_get_ast_keys_and_methods {Stmt : Type}
    (parseDesc : String → String) (c : DvClassS Stmt) :
    ((classGetAst parseDesc c).map Prod.fst =
       ["rawname", "name", "super", "flags", "isInterface", "interfaces",
        "annotations", "fields", "methods"]) ∧
    ((classGetAst parseDesc c).lookup "methods" =
       some (AVal.ms (c.methods.filterMap
         (fun m => match m with
           | ClsMethodE.dvm a => a
           | ClsMethodE.encoded _ => none)))) := by
  constructor
  · rfl
  · show some (AVal.ms (classGetAstMethods c.methods)) = _
    rw [classGetAstMethods_eq]

/-- C1: for a method with code, `DvMethod.process` runs the pipeline
passes in the strict fixed order: CFG construction, build_def_use,
split_variables, dead_code_elimination, register_propagation,
resolve_variables_type, new_instance_propagation, registration of the
generated temporary variables, place_declarations, split_if_nodes,
simplify, compute_rpo, and identify_structures last (followed only by
the emission step); in particular structuring never runs before
simplification and no propagation pass runs before def/use
construction, and the final graph is the structuring pass applied on
top of compute_rpo, simplify and split_if_nodes. -/
theorem process_pipeline_order {G DU UD Exc IDom Stmt : Type}
    (c : Collab G DU UD Exc IDom Stmt) (m : DvMethodS G Exc Stmt)
    (doAST : Bool) (sb : Nat) (h : m.startBlock = some sb) :
    ((process c m doAST).2 =
       [Pass.construct, Pass.buildDefUse, Pass.splitVariables,
        Pass.deadCodeElimination, Pass.registerPropagation,
        Pass.resolveVariablesType, Pass.newInstancePropagation,
        Pass.registerTmpVars, Pass.placeDeclarations, Pass.splitIfNodes,
        Pass.simplifyG, Pass.computeRpo, Pass.identifyStructures,
        if doAST then Pass.emitAST else Pass.emitText]) ∧
    ((process c m doAST).2.indexOf Pass.simplifyG <
       (process c m doAST).2.indexOf Pass.identifyStructures) ∧
    ((process c m doAST).2.indexOf Pass.buildDefUse <
       (process c m doAST).2.indexOf Pass.registerPropagation) ∧
    ((process c m doAST).2.indexOf Pass.buildDefUse <
       (process c m doAST).2.indexOf Pass.newInstancePropagation) ∧
    (∃ g0 : G, (process c m doAST).1.graph =
       some (c.identify_structures
         (c.compute_rpo (c.simplify (c.split_if_nodes g0)))
         (c.immediate_dominators
           (c.compute_rpo (c.simplify (c.split_if_nodes g0)))))) := by
  have htr : (process c m doAST).2 =
      [Pass.construct, Pass.buildDefUse, Pass.splitVariables,
       Pass.deadCodeElimination, Pass.registerPropagation,
       Pass.resolveVariablesType, Pass.newInstancePropagation,
       Pass.registerTmpVars, Pass.placeDeclarations, Pass.splitIfNodes,
       Pass.simplifyG, Pass.computeRpo, Pass.identifyStructures,
       if doAST then Pass.emitAST else Pass.emitText] := by
    cases doAST <;> simp [process, h]
  refine ⟨htr, ?_, ?_, ?_, ?_⟩
  · rw [htr]; cases doAST <;> decide
  · rw [htr]; cases doAST <;> decide
  · rw [htr]; cases doAST <;> decide
  · cases doAST <;> simp [process, h] <;> exact ⟨_, rfl⟩

/-- C1 witness: on a concrete collaborator instance and a concrete
method with code, the recorded pass trace is the fixed pipeline
order. -/
theorem process_pipeline_order_witness :
    (process trivCollab mWithCode true).2 =
      [Pass.construct, Pass.buildDefUse, Pass.splitVariables,
       Pass.deadCodeElimination, Pass.registerPropagation,
       Pass.resolveVariablesType, Pass.newInstancePropagation,
       Pass.registerTmpVars, Pass.placeDeclarations, Pass.splitIfNodes,
       Pass.simplifyG, Pass.computeRpo, Pass.identifyStructures,
       Pass.emitAST] := by
  have h := (process_pipeline_order trivCollab mWithCode true 0 rfl).1
  simpa using h

/-- C2: for a method without code (start block absent),
`DvMethod.process` emits only the prototype with an empty body and
returns: in text mode a writer over a `None` graph is installed, in
AST mode a JSON AST over a `None` graph with an empty body, the
`graph` attribute stays `None`, and no CFG or dataflow pass event is
produced (the trace is just the single emission event). -/
theorem process_no_code {G DU UD Exc IDom Stmt : Type}
    (c : Collab G DU UD Exc IDom Stmt) (m : DvMethodS G Exc Stmt)
    (h : m.startBlock = none) (hg : m.graph = none) :
    ((process c m false).1.writer = some (mkWriterM none c.renderText m)) ∧
    ((mkWriterM none c.renderText m).1 = none) ∧
    ((mkWriterM none c.renderText m).2 = protoOf m ++ " \x7b\x7d\n") ∧
    ((process c m false).1.graph = none) ∧
    ((process c m false).2 = [Pass.emitText]) ∧
    ((process c m true).1.ast = some (jsonGetAst none c.renderBody m)) ∧
    ((jsonGetAst none c.renderBody m).body = []) ∧
    ((process c m true).1.graph = none) ∧
    ((process c m true).2 = [Pass.emitAST]) := by
  refine ⟨?_, rfl, rfl, ?_, ?_, ?_, rfl, ?_, ?_⟩
  all_goals simp [process, h, hg]

/-- C2 witness: the concrete native method keeps a `None` graph, emits
a single writer event in each mode, and its AST body is empty. -/
theorem process_no_code_witness :
    ((process trivCollab mNoCode false).1.graph = none) ∧
    ((process trivCollab mNoCode false).2 = [Pass.emitText]) ∧
    ((process trivCollab mNoCode true).2 = [Pass.emitAST]) ∧
    ((jsonGetAst none trivCollab.renderBody mNoCode).body = []) := by
  have h := process_no_code trivCollab mNoCode rfl rfl
  exact ⟨h.2.2.2.1, h.2.2.2.2.1, h.2.2.2.2.2.2.2.2,
         h.2.2.2.2.2.2.1⟩

end Dad



